import Mathlib

/-!
Verification of the OpenFrame provisioning/teardown engine
(`openframe-client`): disk-image extraction, console-session launching,
preference propagation, and the fail-fast tool-uninstallation orchestrator.

The Rust sources are shallowly embedded as follows.
- Filesystem paths are modelled as lists of normal path components
  (`List String`); `Path::ancestors` walks from the path itself up to the
  empty (root) path.
- Effectful collaborators (registry, kill service, command resolver,
  subprocess execution, filesystem queries) are modelled as oracle fields of
  an environment structure; each modelled operation returns its result
  together with a trace of the externally visible actions it performed, in
  order.  Log statements are not modelled.
- `anyhow` errors are modelled as `String`; `.context(msg)` wrapping is the
  function `ctx` below.
- Rust string primitives used by the sources (`starts_with`, `ends_with`,
  `strip_prefix` remainders, `to_lowercase`, `contains`) are modelled
  character-wise on `String.data`, which coincides with the byte-wise Rust
  semantics on valid UTF-8 and keeps every definition kernel-executable.
-/

/-- Models `anyhow`'s `.context(msg)` / `.with_context(..)`: the resulting
error message names `msg` and carries the underlying error. -/
def ctx (msg e : String) : String := msg ++ ": " ++ e

/-- Renders a component-list path, for error messages only. -/
def path_str (p : List String) : String := String.intercalate "/" p

/-- Models Rust `str::starts_with` (character-wise). -/
def str_starts_with (s pre : String) : Bool := pre.data.isPrefixOf s.data

/-- Models Rust `str::ends_with` (character-wise). -/
def str_ends_with (s suf : String) : Bool := suf.data.isSuffixOf s.data

/-- Models taking the remainder of a successful Rust `str::strip_prefix`
with a prefix of `n` characters. -/
def str_drop (s : String) (n : Nat) : String := String.mk (s.data.drop n)

/-- Models Rust `str::to_lowercase` (ASCII case folding, which is all the
sources rely on). -/
def str_to_lower (s : String) : String := String.mk (s.data.map Char.toLower)

/-- Models Rust `str::contains` for a literal pattern. -/
def str_contains_sub (s pat : String) : Bool :=
  s.data.tails.any (fun t => pat.data.isPrefixOf t)

/-- Outcome of spawning an external command: the spawn itself can fail, or
the command runs and exits with a success flag plus captured stdout/stderr. -/
inductive CmdOutcome where
  | spawnErr (e : String)
  | exited (success : Bool) (stdout stderr : String)
  deriving DecidableEq

/-- Result of a fallible operation: models Rust `anyhow::Result`. -/
abbrev RustResult (α : Type) := Except String α

/-- Boolean success test on a result. -/
def is_ok {α : Type} : RustResult α → Bool
  | Except.ok _ => true
  | Except.error _ => false

/-- From `user_session`: the owner of the interactive console session. -/
structure ConsoleUser where
  username : String
  uid : Nat
  deriving DecidableEq

/-- Models Rust `Path::extension` of a single path component: the part
after the final dot, provided that dot is not the leading character.
Components are assumed to be normal (no `.` / `..`). -/
def rust_extension (name : String) : Option String :=
  let cs := name.data
  match cs.reverse.findIdx? (fun c => c == '.') with
  | none => none
  | some i =>
    if cs.length - 1 - i = 0 then none
    else some (String.mk ((cs.reverse.take i).reverse))

/-- Models Rust `Path::extension` on a component-list path: the extension
of its final component, `none` for the root/empty path. -/
def path_extension (p : List String) : Option String :=
  match p.getLast? with
  | none => none
  | some name => rust_extension name

/-- Helper for `Path::ancestors` on reversed component lists (structural
recursion so that everything evaluates). -/
def ancestors_aux : List String → List (List String)
  | [] => [[]]
  | c :: rest => (c :: rest).reverse :: ancestors_aux rest

/-- Models Rust `Path::ancestors`: the path itself, then each parent, down
to the empty (root) path, whose `file_name` is `none`. -/
def ancestors (p : List String) : List (List String) :=
  ancestors_aux p.reverse

namespace PreferencesWriter

/-- From `preferences_writer.rs` (`args_to_pairs`): converts CLI-style
args to key-value pairs, scanning left to right. -/
def args_to_pairs : List String → List (String × String)
  | [] => []
  | [a] =>
    if str_starts_with a "--" = true then [(str_drop a 2, "1")]
    else []
  | a :: v :: rest2 =>
    if str_starts_with a "--" = true then
      if str_starts_with v "--" = false then
        (str_drop a 2, v) :: args_to_pairs rest2
      else
        (str_drop a 2, "1") :: args_to_pairs (v :: rest2)
    else
      args_to_pairs (v :: rest2)

/-- Environment for the macOS preference channel: the console-user
resolution outcome and the outcome of each privilege-dropped
`sudo -u <user> defaults write <bundle> <key> <value>` invocation. -/
structure PrefsEnv where
  consoleUser : Option ConsoleUser
  defaultsWrite : String → String → String → String → CmdOutcome

/-- The per-pair loop of `write`: attempts each pair in order, aborting on
the first failure.  Also returns the list of pairs actually attempted. -/
def writePairs (env : PrefsEnv) (username bundle_id : String) :
    List (String × String) → RustResult Unit × List (String × String)
  | [] => (Except.ok (), [])
  | (key, value) :: rest =>
    match env.defaultsWrite username bundle_id key value with
    | CmdOutcome.spawnErr e =>
      (Except.error (ctx ("Failed to write preference " ++ key) e), [(key, value)])
    | CmdOutcome.exited ok _ _ =>
      if ok = false then
        (Except.error ("defaults write failed for " ++ key), [(key, value)])
      else
        match writePairs env username bundle_id rest with
        | (r, attempts) => (r, (key, value) :: attempts)

/-- From `preferences_writer.rs` (`write`, macOS build): resolves the
console user, then short-circuits on an empty pair list, then writes each
pair under privilege drop, failing fast. -/
def write (env : PrefsEnv) (bundle_id : String) (prefs : List (String × String)) :
    RustResult Unit × List (String × String) :=
  match env.consoleUser with
  | none => (Except.error "No console user found", [])
  | some user =>
    if prefs.isEmpty then (Except.ok (), [])
    else writePairs env user.username bundle_id prefs

end PreferencesWriter

namespace UserSession

/-- Environment for the console-session bridge: filesystem existence of a
path and the outcome of spawning an argv (a child pid on success). -/
structure LaunchEnv where
  pathExists : List String → Bool
  spawn : List String → RustResult Nat

/-- The per-ancestor test of `extract_app_bundle_path`: the ancestor has a
final component (`file_name`) and it ends with `.app`. -/
def app_name_match (ancestor : List String) : Bool :=
  match ancestor.getLast? with
  | some name => str_ends_with name ".app"
  | none => false

/-- From `user_session/macos.rs` (`extract_app_bundle_path`): walking the
ancestors of the executable path from the deepest upward, the first one
whose final component ends in `.app`. -/
def extract_app_bundle_path (executable : List String) : Option (List String) :=
  (ancestors executable).find? app_name_match

/-- The argv built by `launch_via_launchctl`: an `open -a <bundle>` call
when the executable sits inside a `.app` bundle (with `--args` separating
the argument vector only when it is non-empty), else the raw executable. -/
def launchctl_argv (executable : List String) (args : List String) (uid : Nat) : List String :=
  match extract_app_bundle_path executable with
  | some app_path =>
    ["launchctl", "asuser", toString uid, "open", "-a", path_str app_path]
      ++ (if args.isEmpty then [] else "--args" :: args)
  | none =>
    ["launchctl", "asuser", toString uid, path_str executable] ++ args

/-- From `user_session/macos.rs` (`launch_via_launchctl`): Strategy A,
the session-aware launch as the target uid.  Returns the spawn result and
the argvs spawned. -/
def launch_via_launchctl (env : LaunchEnv) (executable : List String) (args : List String)
    (uid : Nat) : RustResult Nat × List (List String) :=
  let argv := launchctl_argv executable args uid
  (match env.spawn argv with
   | Except.ok child => Except.ok child
   | Except.error e => Except.error (ctx ("launchctl asuser " ++ toString uid ++ " failed") e),
   [argv])

/-- The argv built by `launch_via_sudo`. -/
def sudo_argv (executable : List String) (args : List String) (username : String) : List String :=
  ["sudo", "-u", username, path_str executable] ++ args

/-- From `user_session/macos.rs` (`launch_via_sudo`): Strategy B, the
generic privilege-drop launch as the given username. -/
def launch_via_sudo (env : LaunchEnv) (executable : List String) (args : List String)
    (username : String) : RustResult Nat × List (List String) :=
  let argv := sudo_argv executable args username
  (match env.spawn argv with
   | Except.ok child => Except.ok child
   | Except.error e => Except.error (ctx ("sudo -u " ++ username ++ " failed") e),
   [argv])

/-- From `user_session/macos.rs` (`launch_as_user`): bails with a
not-found error when the executable path does not exist, otherwise tries
Strategy A and falls back to Strategy B on any Strategy A failure. -/
def launch_as_user (env : LaunchEnv) (executable : List String) (args : List String)
    (user : ConsoleUser) : RustResult Nat × List (List String) :=
  if env.pathExists executable = false then
    (Except.error ("Executable not found: " ++ path_str executable), [])
  else
    match launch_via_launchctl env executable args user.uid with
    | (Except.ok child, evs) => (Except.ok child, evs)
    | (Except.error _, evs) =>
      match launch_via_sudo env executable args user.username with
      | (r, evs2) => (r, evs ++ evs2)

end UserSession

namespace DmgExtractor

/-- Filesystem entries distinguished by the extractor's pre-copy cleanup. -/
inductive Entry where
  | absent
  | file
  | dir
  | symlink
  deriving DecidableEq

/-- A filesystem snapshot: what entry each component-list path holds. -/
def FS : Type := List String → Entry

/-- Pointwise filesystem update. -/
def FS.set (fs : FS) (p : List String) (e : Entry) : FS :=
  fun q => if q = p then e else fs q

/-- Models `Path::exists`. -/
def entry_exists (fs : FS) (p : List String) : Bool :=
  match fs p with
  | Entry.absent => false
  | _ => true

/-- Externally visible actions of `extract_all`, in order. -/
inductive DmgEvent where
  | writeDmg (p : List String)
  | createMountDir (p : List String)
  | hdiutilAttach (mnt dmg : List String)
  | removeDest (p : List String)
  | copy (src dst : List String)
  | hdiutilDetach (mnt : List String)
  | removeMountDir (p : List String)
  | removeDmgFile (p : List String)
  deriving DecidableEq

/-- Environment for one `extract_all` invocation: the temp directory and
the unique id drawn for this call, plus the outcome of each external
operation it may attempt (each is attempted at most once per call).
Contents placed under the mount point by a successful attach, and the
copy's effect on the target directory, are not tracked — only outcomes. -/
structure DmgEnv where
  tempDir : List String
  dmgId : String
  writeOk : Bool
  createDirOk : Bool
  attach : CmdOutcome
  removeDestFileOk : Bool
  removeDestDirOk : Bool
  cp : CmdOutcome
  detach : CmdOutcome
  removeMountDirOk : Bool
  removeDmgOk : Bool

/-- The uniquely-named temporary image file `<tempDir>/<id>.dmg`. -/
def dmg_path_of (env : DmgEnv) : List String := env.tempDir ++ [env.dmgId ++ ".dmg"]

/-- The uniquely-named temporary mount point `<tempDir>/mnt_<id>`. -/
def mount_point_of (env : DmgEnv) : List String := env.tempDir ++ ["mnt_" ++ env.dmgId]

/-- The copy source: `mountPoint/sourcePath` when a source path within the
image is given, else the mount point itself. -/
def dmg_source (env : DmgEnv) (source_path : Option (List String)) : List String :=
  match source_path with
  | some p => mount_point_of env ++ p
  | none => mount_point_of env

/-- From `dmg_extractor.rs` (`mount`): creates the mount-point directory,
then runs `hdiutil attach`; a nonzero exit or spawn failure is an error. -/
def mount (env : DmgEnv) (fs : FS) (dmg_path mount_point : List String) :
    RustResult Unit × FS × List DmgEvent :=
  if env.createDirOk = false then
    (Except.error ("Failed to create mount point: " ++ path_str mount_point), fs,
     [DmgEvent.createMountDir mount_point])
  else
    let fs1 := FS.set fs mount_point Entry.dir
    match env.attach with
    | CmdOutcome.spawnErr e =>
      (Except.error (ctx "Failed to execute hdiutil attach" e), fs1,
       [DmgEvent.createMountDir mount_point, DmgEvent.hdiutilAttach mount_point dmg_path])
    | CmdOutcome.exited ok _ err =>
      if ok = false then
        (Except.error ("hdiutil attach failed: " ++ err), fs1,
         [DmgEvent.createMountDir mount_point, DmgEvent.hdiutilAttach mount_point dmg_path])
      else
        (Except.ok (), fs1,
         [DmgEvent.createMountDir mount_point, DmgEvent.hdiutilAttach mount_point dmg_path])

/-- From `dmg_extractor.rs` (`unmount`): runs `hdiutil detach`; on success
additionally best-effort-removes the mount-point directory. -/
def unmount (env : DmgEnv) (fs : FS) (mount_point : List String) :
    RustResult Unit × FS × List DmgEvent :=
  match env.detach with
  | CmdOutcome.spawnErr e =>
    (Except.error (ctx "Failed to execute hdiutil detach" e), fs, [DmgEvent.hdiutilDetach mount_point])
  | CmdOutcome.exited ok _ err =>
    if ok = false then
      (Except.error ("hdiutil detach failed: " ++ err), fs, [DmgEvent.hdiutilDetach mount_point])
    else
      let fs2 := if env.removeMountDirOk = true then FS.set fs mount_point Entry.absent else fs
      (Except.ok (), fs2, [DmgEvent.hdiutilDetach mount_point, DmgEvent.removeMountDir mount_point])

/-- From `dmg_extractor.rs` (`copy_recursive`): runs `cp -R src target`;
its effect on the target directory is outside this model. -/
def copy_recursive (env : DmgEnv) (source target : List String) :
    RustResult Unit × List DmgEvent :=
  match env.cp with
  | CmdOutcome.spawnErr e =>
    (Except.error (ctx "Failed to execute cp -R" e), [DmgEvent.copy source target])
  | CmdOutcome.exited ok _ err =>
    (if ok = false then Except.error ("cp -R failed: " ++ err) else Except.ok (),
     [DmgEvent.copy source target])

/-- The pre-copy removal of a pre-existing destination entry sharing the
copy source's base name (best-effort, symlink before directory). -/
def remove_existing_dest (env : DmgEnv) (fs : FS) (target_dir source : List String) :
    FS × List DmgEvent :=
  match source.getLast? with
  | none => (fs, [])
  | some name =>
    let dest := target_dir ++ [name]
    if fs dest = Entry.symlink then
      (if env.removeDestFileOk = true then FS.set fs dest Entry.absent else fs,
       [DmgEvent.removeDest dest])
    else if entry_exists fs dest = true then
      (if env.removeDestDirOk = true then FS.set fs dest Entry.absent else fs,
       [DmgEvent.removeDest dest])
    else (fs, [])

/-- The part of `extract_all` that runs once the image is mounted:
remove a clashing destination entry, copy, then unconditionally attempt
unmount and temp-file removal, returning the copy result. -/
def extract_all_after_mount (env : DmgEnv) (fs2 : FS) (target_dir : List String)
    (source_path : Option (List String)) : RustResult Unit × FS × List DmgEvent :=
  let dmg_path := dmg_path_of env
  let mount_point := mount_point_of env
  let source := dmg_source env source_path
  match remove_existing_dest env fs2 target_dir source with
  | (fs3, evs2) =>
    match copy_recursive env source target_dir with
    | (result, evs3) =>
      match unmount env fs3 mount_point with
      | (_, fs4, evs4) =>
        let fs5 := if env.removeDmgOk = true then FS.set fs4 dmg_path Entry.absent else fs4
        (result, fs5, evs2 ++ evs3 ++ evs4 ++ [DmgEvent.removeDmgFile dmg_path])

/-- From `dmg_extractor.rs` (`extract_all`, macOS build): writes the image
bytes to a temp file, mounts it, removes a clashing destination entry,
copies, then unconditionally attempts unmount and temp-file removal and
returns the copy result.  Returns the result, the final filesystem and
the action trace.  Note that the write-failure and mount-failure paths
return early, before any cleanup. -/
def extract_all (env : DmgEnv) (fs : FS) (target_dir : List String)
    (source_path : Option (List String)) : RustResult Unit × FS × List DmgEvent :=
  let dmg_path := dmg_path_of env
  let mount_point := mount_point_of env
  if env.writeOk = false then
    (Except.error ("Failed to write DMG to temp file: " ++ path_str dmg_path), fs,
     [DmgEvent.writeDmg dmg_path])
  else
    let fs1 := FS.set fs dmg_path Entry.file
    match mount env fs1 dmg_path mount_point with
    | (Except.error e, fs2, evs) =>
      (Except.error (ctx "Failed to mount DMG" e), fs2, DmgEvent.writeDmg dmg_path :: evs)
    | (Except.ok _, fs2, evs) =>
      match extract_all_after_mount env fs2 target_dir source_path with
      | (result, fsF, evsF) =>
        (result, fsF, DmgEvent.writeDmg dmg_path :: evs ++ evsF)

end DmgExtractor

/-- From `download_configuration.rs`: the install shape of a tool. -/
inductive InstallationType where
  | Standard
  | GuiApp
  deriving DecidableEq

/-- From the models crate (`InstalledTool`, the fields the uninstall
service reads): registry record of an installed tool. -/
structure InstalledTool where
  tool_agent_id : String
  installation_type : InstallationType
  executable_path : Option (List String)
  uninstallation_command_args : Option (List String)
  deriving DecidableEq

namespace ToolUninstallService

/-- Externally visible actions of the uninstall orchestrator, in order. -/
inductive Event where
  | processTool (id : String)
  | stopTool (id : String)
  | stopAsset (name id : String)
  | resolveCmd (id : String) (args : List String)
  | execCmd (path : List String) (args : List String)
  | cleanupGui (id : String)
  | removeBundle (path : List String) (ok : Bool)
  deriving DecidableEq

/-- Environment for the uninstall orchestrator: the registry, kill
service, command resolver and directory manager collaborators, plus the
filesystem and subprocess oracles. -/
structure ToolEnv where
  getAll : RustResult (List InstalledTool)
  stopInstalledTool : InstalledTool → RustResult Unit
  stopAsset : String → String → RustResult Unit
  resolveParams : String → List String → RustResult (List String)
  toolExecPath : String → Option (List String) → List String
  pathExists : List String → Bool
  execOutput : List String → List String → CmdOutcome
  removeDirAll : List String → Bool

/-- The predicate `remove_macos_app_bundle` applies to each ancestor:
its `extension()` equals `app`. -/
def is_app_bundle (p : List String) : Bool :=
  match path_extension p with
  | some e => e == "app"
  | none => false

/-- From `tool_uninstall_service.rs` (`remove_macos_app_bundle`): finds
the nearest ancestor with extension `app`; a missing match or an
already-absent bundle is only logged; otherwise `remove_dir_all` is
attempted and its outcome (success or failure) is only logged. -/
def remove_macos_app_bundle (env : ToolEnv) (executable_path : List String) : List Event :=
  match (ancestors executable_path).find? is_app_bundle with
  | none => []
  | some app_bundle =>
    if env.pathExists app_bundle = false then []
    else [Event.removeBundle app_bundle (env.removeDirAll app_bundle)]

/-- From `tool_uninstall_service.rs` (`cleanup_gui_app_bundle`, macOS
build): no-op unless the tool is a `GuiApp` with a recorded executable
path; never produces an error value.  The leading event marks that the
cleanup step was invoked. -/
def cleanup_gui_app_bundle (env : ToolEnv) (tool : InstalledTool) : List Event :=
  Event.cleanupGui tool.tool_agent_id ::
    (if tool.installation_type ≠ InstallationType.GuiApp then []
     else
       match tool.executable_path with
       | none => []
       | some exec_path => remove_macos_app_bundle env exec_path)

/-- The osquery special case of `uninstall_tool`: when the tool id
contains `fleet` (case-insensitively), also stop the `osqueryd` asset. -/
def fleet_asset_stop (env : ToolEnv) (id : String) : RustResult Unit × List Event :=
  if str_contains_sub (str_to_lower id) "fleet" = true then
    match env.stopAsset "osqueryd" id with
    | Except.error e =>
      (Except.error (ctx ("Failed to stop tool process for: " ++ id) e),
       [Event.stopAsset "osqueryd" id])
    | Except.ok _ => (Except.ok (), [Event.stopAsset "osqueryd" id])
  else (Except.ok (), [])

/-- The command phase of `uninstall_tool` (steps 4-6): resolve
placeholders, skip (returning success, with no cleanup) when the resolved
executable path does not exist, else execute and treat nonzero exit as
fatal, running GuiApp bundle cleanup only after a successful command. -/
def run_uninstall_command (env : ToolEnv) (tool : InstalledTool) (uninstall_args : List String) :
    RustResult Unit × List Event :=
  let id := tool.tool_agent_id
  match env.resolveParams id uninstall_args with
  | Except.error e =>
    (Except.error (ctx "Failed to process uninstallation command parameters" e),
     [Event.resolveCmd id uninstall_args])
  | Except.ok processed_args =>
    let agent_path := env.toolExecPath id tool.executable_path
    if env.pathExists agent_path = false then
      (Except.ok (), [Event.resolveCmd id uninstall_args])
    else
      match env.execOutput agent_path processed_args with
      | CmdOutcome.spawnErr e =>
        (Except.error (ctx "Failed to execute uninstallation command" e),
         [Event.resolveCmd id uninstall_args, Event.execCmd agent_path processed_args])
      | CmdOutcome.exited ok out err =>
        if ok = false then
          (Except.error ("Uninstallation command for " ++ id
              ++ " exited with nonzero status\nstdout: " ++ out ++ "\nstderr: " ++ err),
           [Event.resolveCmd id uninstall_args, Event.execCmd agent_path processed_args])
        else
          (Except.ok (),
           [Event.resolveCmd id uninstall_args, Event.execCmd agent_path processed_args]
             ++ cleanup_gui_app_bundle env tool)

/-- From `tool_uninstall_service.rs` (`uninstall_tool`): stop the tool
process, apply the osquery special case, then either skip to bundle
cleanup (no uninstall args) or run the command phase. -/
def uninstall_tool (env : ToolEnv) (tool : InstalledTool) : RustResult Unit × List Event :=
  let id := tool.tool_agent_id
  match env.stopInstalledTool tool with
  | Except.error e =>
    (Except.error (ctx ("Failed to stop tool process for: " ++ id) e), [Event.stopTool id])
  | Except.ok _ =>
    match fleet_asset_stop env id with
    | (Except.error e, evs) => (Except.error e, Event.stopTool id :: evs)
    | (Except.ok _, evs) =>
      match tool.uninstallation_command_args with
      | some args =>
        if args.isEmpty then
          (Except.ok (), Event.stopTool id :: evs ++ cleanup_gui_app_bundle env tool)
        else
          match run_uninstall_command env tool args with
          | (r, evs2) => (r, Event.stopTool id :: evs ++ evs2)
      | none => (Except.ok (), Event.stopTool id :: evs ++ cleanup_gui_app_bundle env tool)

/-- The batch loop of `uninstall_all`: process tools in registry order,
wrapping the first failure with the failing tool's id and aborting. -/
def uninstall_tools (env : ToolEnv) : List InstalledTool → RustResult Unit × List Event
  | [] => (Except.ok (), [])
  | t :: rest =>
    match uninstall_tool env t with
    | (Except.error e, evs) =>
      (Except.error (ctx ("Failed to uninstall tool: " ++ t.tool_agent_id) e),
       Event.processTool t.tool_agent_id :: evs)
    | (Except.ok _, evs) =>
      match uninstall_tools env rest with
      | (r, evs2) => (r, (Event.processTool t.tool_agent_id :: evs) ++ evs2)

/-- From `tool_uninstall_service.rs` (`uninstall_all`): fetch the
registry; an empty list is a no-op success; otherwise run the fail-fast
batch loop. -/
def uninstall_all (env : ToolEnv) : RustResult Unit × List Event :=
  match env.getAll with
  | Except.error e => (Except.error (ctx "Failed to retrieve installed tools" e), [])
  | Except.ok tools =>
    if tools.isEmpty then (Except.ok (), [])
    else uninstall_tools env tools

/-- The phases of `uninstall_tool` that precede GuiApp bundle cleanup all
succeed: the process stop, the osquery special case when it applies, and
the command phase (absent/empty args, a missing executable, or a
successfully exiting command). -/
def command_phase_ok (env : ToolEnv) (tool : InstalledTool) : Prop :=
  match tool.uninstallation_command_args with
  | none => True
  | some args =>
    args = []
    ∨ ∃ pargs, env.resolveParams tool.tool_agent_id args = Except.ok pargs
        ∧ (env.pathExists (env.toolExecPath tool.tool_agent_id tool.executable_path) = false
           ∨ ∃ out err,
               env.execOutput (env.toolExecPath tool.tool_agent_id tool.executable_path) pargs
                 = CmdOutcome.exited true out err)

/-- All pre-cleanup phases of `uninstall_tool` succeed for this tool. -/
def tool_phases_ok (env : ToolEnv) (tool : InstalledTool) : Prop :=
  env.stopInstalledTool tool = Except.ok ()
  ∧ (str_contains_sub (str_to_lower tool.tool_agent_id) "fleet" = true →
      env.stopAsset "osqueryd" tool.tool_agent_id = Except.ok ())
  ∧ command_phase_ok env tool

end ToolUninstallService

namespace PreferencesWriter

/-- Concrete environment: a console user is present and the
`defaults write` for key `b` exits nonzero while every other key succeeds. -/
def envC8 : PrefsEnv :=
  { consoleUser := some { username := "alice", uid := 501 }
  , defaultsWrite := fun _ _ key _ =>
      if key = "b" then CmdOutcome.exited false "" "" else CmdOutcome.exited true "" "" }

/-- Concrete environment: no console user at all (headless / login screen). -/
def envNoUser : PrefsEnv :=
  { consoleUser := none
  , defaultsWrite := fun _ _ _ _ => CmdOutcome.exited true "" "" }

end PreferencesWriter

namespace UserSession

/-- Concrete environment: no path exists; spawning always succeeds. -/
def envC5 : LaunchEnv :=
  { pathExists := fun _ => false, spawn := fun _ => Except.ok 7 }

/-- Concrete executable path inside an application bundle. -/
def exeC6 : List String := ["Applications", "Foo.app", "Contents", "MacOS", "foo"]

end UserSession

namespace DmgExtractor

/-- The empty filesystem. -/
def fs0 : FS := fun _ => Entry.absent

/-- Concrete environment where `hdiutil attach` exits nonzero (the mount
itself fails) while everything else would succeed. -/
def envC2a : DmgEnv :=
  { tempDir := ["tmp"], dmgId := "id0", writeOk := true, createDirOk := true
  , attach := CmdOutcome.exited false "" "attach boom"
  , removeDestFileOk := true, removeDestDirOk := true
  , cp := CmdOutcome.exited true "" "", detach := CmdOutcome.exited true "" ""
  , removeMountDirOk := true, removeDmgOk := true }

/-- Concrete environment where everything succeeds except `hdiutil detach`. -/
def envC2b : DmgEnv :=
  { envC2a with
    attach := CmdOutcome.exited true "" "",
    detach := CmdOutcome.exited false "" "detach boom" }

/-- Concrete environment where every external operation succeeds. -/
def envC2w : DmgEnv :=
  { envC2a with attach := CmdOutcome.exited true "" "" }

end DmgExtractor

namespace ToolUninstallService

/-- Concrete registry tool #1. -/
def toolA : InstalledTool :=
  { tool_agent_id := "alpha", installation_type := InstallationType.Standard
  , executable_path := none, uninstallation_command_args := none }

/-- Concrete registry tool #2, whose process stop will fail. -/
def toolB : InstalledTool :=
  { tool_agent_id := "beta", installation_type := InstallationType.Standard
  , executable_path := none, uninstallation_command_args := none }

/-- Concrete registry tool #3. -/
def toolC : InstalledTool :=
  { tool_agent_id := "gamma", installation_type := InstallationType.Standard
  , executable_path := none, uninstallation_command_args := none }

/-- Concrete environment: three registered tools, with the kill service
failing exactly for tool #2 (`beta`). -/
def envC1 : ToolEnv :=
  { getAll := Except.ok [toolA, toolB, toolC]
  , stopInstalledTool := fun t =>
      if t.tool_agent_id = "beta" then Except.error "boom" else Except.ok ()
  , stopAsset := fun _ _ => Except.ok ()
  , resolveParams := fun _ as => Except.ok as
  , toolExecPath := fun _ p => p.getD []
  , pathExists := fun _ => true
  , execOutput := fun _ _ => CmdOutcome.exited true "" ""
  , removeDirAll := fun _ => true }

/-- Concrete GuiApp tool carrying uninstall arguments, whose resolved
executable path will not exist on disk. -/
def toolC3 : InstalledTool :=
  { tool_agent_id := "foo", installation_type := InstallationType.GuiApp
  , executable_path := some ["Applications", "Foo.app", "Contents", "MacOS", "foo"]
  , uninstallation_command_args := some ["--uninstall"] }

/-- Concrete environment for `toolC3`: every collaborator succeeds but no
path exists on disk. -/
def envC3 : ToolEnv :=
  { getAll := Except.ok [toolC3]
  , stopInstalledTool := fun _ => Except.ok ()
  , stopAsset := fun _ _ => Except.ok ()
  , resolveParams := fun _ as => Except.ok as
  , toolExecPath := fun _ p => p.getD []
  , pathExists := fun _ => false
  , execOutput := fun _ _ => CmdOutcome.exited true "" ""
  , removeDirAll := fun _ => true }

/-- Concrete GuiApp tool with no uninstall command arguments. -/
def toolC4 : InstalledTool :=
  { tool_agent_id := "guitool", installation_type := InstallationType.GuiApp
  , executable_path := some ["Applications", "Gui.app", "Contents", "MacOS", "gui"]
  , uninstallation_command_args := none }

/-- Concrete environment for `toolC4`: stops succeed, the bundle exists
and its recursive deletion succeeds. -/
def envC4 : ToolEnv :=
  { envC1 with stopInstalledTool := fun _ => Except.ok () }

/-- Concrete GuiApp tool with uninstall arguments whose command succeeds. -/
def toolC9 : InstalledTool :=
  { tool_agent_id := "guitool2", installation_type := InstallationType.GuiApp
  , executable_path := some ["Applications", "Gui2.app", "Contents", "MacOS", "gui2"]
  , uninstallation_command_args := some ["--uninstall"] }

/-- Concrete environment for `toolC9`: every pre-cleanup phase succeeds
but the recursive deletion of the bundle directory fails. -/
def envC9 : ToolEnv :=
  { getAll := Except.ok [toolC9]
  , stopInstalledTool := fun _ => Except.ok ()
  , stopAsset := fun _ _ => Except.ok ()
  , resolveParams := fun _ as => Except.ok as
  , toolExecPath := fun _ p => p.getD []
  , pathExists := fun _ => true
  , execOutput := fun _ _ => CmdOutcome.exited true "" ""
  , removeDirAll := fun _ => false }

end ToolUninstallService


namespace PreferencesWriter

/-- C7: `args_to_pairs` scans left to right; an element beginning with
`--` opens a pair keyed by the remainder; if the next element exists and
does not itself start with `--` it is consumed as the value (two elements
consumed), otherwise the value defaults to `"1"` (one element consumed);
elements matching neither pattern are skipped.  The two concrete examples
of the specification are included. -/
theorem args_to_pairs_spec :
    (∀ a rest, str_starts_with a "--" = false →
        args_to_pairs (a :: rest) = args_to_pairs rest)
    ∧ (∀ a v rest, str_starts_with a "--" = true → str_starts_with v "--" = false →
        args_to_pairs (a :: v :: rest) = (str_drop a 2, v) :: args_to_pairs rest)
    ∧ (∀ a v rest, str_starts_with a "--" = true → str_starts_with v "--" = true →
        args_to_pairs (a :: v :: rest) = (str_drop a 2, "1") :: args_to_pairs (v :: rest))
    ∧ (∀ a, str_starts_with a "--" = true →
        args_to_pairs [a] = [(str_drop a 2, "1")])
    ∧ args_to_pairs ["--serverUrl", "https://x", "--devMode"]
        = [("serverUrl", "https://x"), ("devMode", "1")]
    ∧ args_to_pairs ["--a", "--b", "v"] = [("a", "1"), ("b", "v")] := by
  refine ⟨?_, ?_, ?_, ?_, by decide, by decide⟩
  · intro a rest h
    cases rest with
    | nil => simp [args_to_pairs, h]
    | cons v rest2 => simp [args_to_pairs, h]
  · intro a v rest h1 h2
    simp [args_to_pairs, h1, h2]
  · intro a v rest h1 h2
    simp [args_to_pairs, h1, h2]
  · intro a h
    simp [args_to_pairs, h]

/-- Witness for C7: the flag-with-value rule applied at a concrete input. -/
theorem args_to_pairs_spec_witness :
    args_to_pairs ["--serverUrl", "https://x", "--devMode"]
      = ("serverUrl", "https://x") :: args_to_pairs ["--devMode"] :=
  args_to_pairs_spec.2.1 "--serverUrl" "https://x" ["--devMode"] (by decide) (by decide)

/-- C10: an argument element that is exactly `--` opens a pair whose key
is the empty string; the bare double-dash is neither skipped nor an
end-of-options marker. -/
theorem args_to_pairs_bare_double_dash :
    args_to_pairs ["--", "x"] = [("", "x")] ∧ args_to_pairs ["--"] = [("", "1")] := by
  decide

/-- The per-pair loop aborts at the first failing pair: the pairs before
it all succeed and are attempted, the failing pair is attempted, and the
pairs after it are not attempted. -/
theorem writePairs_first_failure (env : PrefsEnv) (username bundle_id : String) :
    ∀ (pre : List (String × String)) (k v : String) (rest : List (String × String)),
    (∀ p ∈ pre, ∃ o e, env.defaultsWrite username bundle_id p.1 p.2 = CmdOutcome.exited true o e) →
    (∀ o e, env.defaultsWrite username bundle_id k v ≠ CmdOutcome.exited true o e) →
    is_ok (writePairs env username bundle_id (pre ++ (k, v) :: rest)).1 = false
    ∧ (writePairs env username bundle_id (pre ++ (k, v) :: rest)).2 = pre ++ [(k, v)] := by
  intro pre
  induction pre with
  | nil =>
    intro k v rest _ hfail
    cases hw : env.defaultsWrite username bundle_id k v with
    | spawnErr e => simp [writePairs, hw, is_ok]
    | exited ok out err =>
      cases ok with
      | true => exact absurd hw (hfail out err)
      | false => simp [writePairs, hw, is_ok]
  | cons p pre ih =>
    intro k v rest hpre hfail
    obtain ⟨pk, pv⟩ := p
    obtain ⟨o, e, hp⟩ := hpre (pk, pv) (List.mem_cons_self _ _)
    have ih2 := ih k v rest (fun q hq => hpre q (List.mem_cons_of_mem _ hq)) hfail
    simp only [List.cons_append, writePairs, hp]
    simpa using ih2

/-- C8: presupposing the console user resolves (the step that precedes
the empty-list check in `write`), an empty key-value list yields success
with zero preference-write attempts; and when pairs are present, the
first pair whose privilege-dropped write fails aborts the call with an
error, the later pairs never being attempted. -/
theorem write_spec (env : PrefsEnv) (bundle_id : String) (u : ConsoleUser)
    (hu : env.consoleUser = some u) :
    write env bundle_id [] = (Except.ok (), [])
    ∧ ∀ pre k v rest,
        (∀ p ∈ pre, ∃ o e, env.defaultsWrite u.username bundle_id p.1 p.2 = CmdOutcome.exited true o e) →
        (∀ o e, env.defaultsWrite u.username bundle_id k v ≠ CmdOutcome.exited true o e) →
        is_ok (write env bundle_id (pre ++ (k, v) :: rest)).1 = false
        ∧ (write env bundle_id (pre ++ (k, v) :: rest)).2 = pre ++ [(k, v)] := by
  constructor
  · simp [write, hu]
  · intro pre k v rest hpre hfail
    have hne : (pre ++ (k, v) :: rest).isEmpty = false := by cases pre <;> rfl
    have h := writePairs_first_failure env u.username bundle_id pre k v rest hpre hfail
    simpa [write, hu, hne] using h

/-- Witness for C8: with a resolved console user, pair `b` fails and pair
`c` after it is never attempted. -/
theorem write_spec_witness :
    is_ok (write envC8 "com.openframe.chat" ([("a", "1")] ++ ("b", "2") :: [("c", "3")])).1 = false
    ∧ (write envC8 "com.openframe.chat" ([("a", "1")] ++ ("b", "2") :: [("c", "3")])).2
        = [("a", "1")] ++ [("b", "2")] :=
  (write_spec envC8 "com.openframe.chat" { username := "alice", uid := 501 } rfl).2
    [("a", "1")] "b" "2" [("c", "3")]
    (by
      intro p hp
      simp only [List.mem_singleton] at hp
      subst hp
      exact ⟨"", "", rfl⟩)
    (by
      intro o e h
      simp [envC8] at h)

end PreferencesWriter

theorem ancestors_aux_mem_length (rev : List String) :
    ∀ b ∈ ancestors_aux rev, b.length ≤ rev.length := by
  induction rev with
  | nil =>
    intro b hb
    simp only [ancestors_aux, List.mem_singleton] at hb
    simp [hb]
  | cons c rest ih =>
    intro b hb
    simp only [ancestors_aux, List.mem_cons] at hb
    rcases hb with h | h
    · simp [h]
    · exact Nat.le_succ_of_le (ih b h)

theorem ancestors_aux_find_longest (pred : List String → Bool) (rev : List String) :
    ∀ b, (ancestors_aux rev).find? pred = some b →
      ∀ b' ∈ ancestors_aux rev, pred b' = true → b'.length ≤ b.length := by
  induction rev with
  | nil =>
    intro b _ b' hb' _
    simp only [ancestors_aux, List.mem_singleton] at hb'
    simp [hb']
  | cons c rest ih =>
    intro b hf b' hb' hp'
    by_cases hpc : pred ((c :: rest).reverse) = true
    · have hpos := List.find?_cons_of_pos (p := pred) (ancestors_aux rest) hpc
      simp only [ancestors_aux] at hf
      rw [hpos] at hf
      have hb : b = (c :: rest).reverse := (Option.some.inj hf).symm
      have hlen := ancestors_aux_mem_length (c :: rest) b' hb'
      subst hb
      simpa using hlen
    · have hneg := List.find?_cons_of_neg (p := pred) (ancestors_aux rest) hpc
      simp only [ancestors_aux] at hf hb'
      rw [hneg] at hf
      rcases List.mem_cons.mp hb' with h | h
      · exact absurd (h ▸ hp') hpc
      · exact ih b hf b' h hp'

namespace UserSession

/-- C6: when the executable path has an ancestor whose final component
ends in `.app`, `extract_app_bundle_path` returns a matching ancestor
that is the nearest (deepest, i.e. of maximal length) such ancestor, and
Strategy A's argv opens that bundle as the target uid, appending the
argument vector after the `--args` separator exactly when it is
non-empty; when no ancestor matches, the raw executable is launched. -/
theorem strategy_a_bundle_spec (exe args : List String) (uid : Nat) :
    (∀ b, extract_app_bundle_path exe = some b →
      b ∈ ancestors exe
      ∧ app_name_match b = true
      ∧ (∀ b' ∈ ancestors exe, app_name_match b' = true → b'.length ≤ b.length)
      ∧ launchctl_argv exe args uid
          = ["launchctl", "asuser", toString uid, "open", "-a", path_str b]
              ++ (if args.isEmpty then [] else "--args" :: args))
    ∧ (extract_app_bundle_path exe = none →
        (∀ b' ∈ ancestors exe, app_name_match b' = false)
        ∧ launchctl_argv exe args uid
            = ["launchctl", "asuser", toString uid, path_str exe] ++ args) := by
  constructor
  · intro b hf
    have hf' : (ancestors exe).find? app_name_match = some b := hf
    refine ⟨List.mem_of_find?_eq_some hf', List.find?_some hf', ?_, ?_⟩
    · intro b' hb' hp'
      exact ancestors_aux_find_longest app_name_match exe.reverse b hf' b' hb' hp'
    · simp [launchctl_argv, hf]
  · intro hn
    constructor
    · intro b' hb'
      have hn' : (ancestors exe).find? app_name_match = none := hn
      have := List.find?_eq_none.mp hn' b' hb'
      simpa using this
    · simp [launchctl_argv, hn]

/-- Witness for C6: the nearest `.app` ancestor of
`Applications/Foo.app/Contents/MacOS/foo` is `Applications/Foo.app`, and
Strategy A opens it with the `--args` separator for a non-empty argument
vector. -/
theorem strategy_a_bundle_spec_witness :
    ["Applications", "Foo.app"] ∈ ancestors exeC6
    ∧ app_name_match ["Applications", "Foo.app"] = true
    ∧ (∀ b' ∈ ancestors exeC6, app_name_match b' = true →
        b'.length ≤ (["Applications", "Foo.app"] : List String).length)
    ∧ launchctl_argv exeC6 ["--x"] 501
        = ["launchctl", "asuser", toString 501, "open", "-a", path_str ["Applications", "Foo.app"]]
            ++ (if (["--x"] : List String).isEmpty then [] else "--args" :: ["--x"]) :=
  (strategy_a_bundle_spec exeC6 ["--x"] 501).1 ["Applications", "Foo.app"] (by decide)

/-- C5: `launch_as_user` on a path that does not exist fails with the
not-found error before any session-launch attempt (the spawn trace is
empty); on an existing path Strategy A is attempted first and its success
is the overall result, while on any Strategy A failure Strategy B is
attempted and its result is the overall result. -/
theorem launch_as_user_spec (env : LaunchEnv) (exe args : List String) (user : ConsoleUser) :
    (env.pathExists exe = false →
      launch_as_user env exe args user
        = (Except.error ("Executable not found: " ++ path_str exe), []))
    ∧ (env.pathExists exe = true →
        (∀ child, env.spawn (launchctl_argv exe args user.uid) = Except.ok child →
            launch_as_user env exe args user
              = (Except.ok child, [launchctl_argv exe args user.uid]))
        ∧ (∀ e, env.spawn (launchctl_argv exe args user.uid) = Except.error e →
            launch_as_user env exe args user
              = ((launch_via_sudo env exe args user.username).1,
                 [launchctl_argv exe args user.uid, sudo_argv exe args user.username]))) := by
  constructor
  · intro h
    simp [launch_as_user, h]
  · intro h
    constructor
    · intro child hs
      simp [launch_as_user, h, launch_via_launchctl, hs]
    · intro e hs
      simp [launch_as_user, h, launch_via_launchctl, launch_via_sudo, hs]

/-- Witness for C5: a nonexistent executable path fails with the
not-found error and an empty spawn trace. -/
theorem launch_as_user_spec_witness :
    launch_as_user envC5 ["nope"] [] { username := "alice", uid := 501 }
      = (Except.error ("Executable not found: " ++ path_str ["nope"]), []) :=
  (launch_as_user_spec envC5 ["nope"] [] { username := "alice", uid := 501 }).1 rfl

end UserSession

namespace DmgExtractor

theorem copy_recursive_trace (env : DmgEnv) (source target : List String) :
    (copy_recursive env source target).2 = [DmgEvent.copy source target] := by
  unfold copy_recursive
  cases env.cp with
  | spawnErr e => rfl
  | exited ok out err => rfl

theorem unmount_detach_mem (env : DmgEnv) (fs : FS) (mnt : List String) :
    DmgEvent.hdiutilDetach mnt ∈ (unmount env fs mnt).2.2 := by
  unfold unmount
  cases env.detach with
  | spawnErr e => simp
  | exited ok out err => by_cases h : ok = false <;> simp [h]

theorem unmount_removes_mount_point (env : DmgEnv) (fs : FS) (mnt : List String)
    (o e : String) (hdet : env.detach = CmdOutcome.exited true o e)
    (hrm : env.removeMountDirOk = true) :
    (unmount env fs mnt).2.1 mnt = Entry.absent := by
  unfold unmount
  rw [hdet]
  simp [hrm, FS.set]

theorem after_mount_spec (env : DmgEnv) (fs2 : FS) (target_dir : List String)
    (source_path : Option (List String)) :
    extract_all_after_mount env fs2 target_dir source_path
      = ((copy_recursive env (dmg_source env source_path) target_dir).1,
         (if env.removeDmgOk = true
          then FS.set (unmount env
              (remove_existing_dest env fs2 target_dir (dmg_source env source_path)).1
              (mount_point_of env)).2.1 (dmg_path_of env) Entry.absent
          else (unmount env
              (remove_existing_dest env fs2 target_dir (dmg_source env source_path)).1
              (mount_point_of env)).2.1),
         (remove_existing_dest env fs2 target_dir (dmg_source env source_path)).2
           ++ (copy_recursive env (dmg_source env source_path) target_dir).2
           ++ (unmount env
                (remove_existing_dest env fs2 target_dir (dmg_source env source_path)).1
                (mount_point_of env)).2.2
           ++ [DmgEvent.removeDmgFile (dmg_path_of env)]) := by
  unfold extract_all_after_mount
  cases hrd : remove_existing_dest env fs2 target_dir (dmg_source env source_path) with
  | mk fs3 evs2 =>
    cases hcp : copy_recursive env (dmg_source env source_path) target_dir with
    | mk result evs3 =>
      cases hum : unmount env fs3 (mount_point_of env) with
      | mk ru rest =>
        cases rest with
        | mk fs4 evs4 => simp [hrd, hcp, hum]

theorem extract_all_mounted (env : DmgEnv) (fs : FS) (target_dir : List String)
    (source_path : Option (List String))
    (hw : env.writeOk = true) (hcd : env.createDirOk = true)
    (o e : String) (hat : env.attach = CmdOutcome.exited true o e) :
    extract_all env fs target_dir source_path
      = ((extract_all_after_mount env
            (FS.set (FS.set fs (dmg_path_of env) Entry.file) (mount_point_of env) Entry.dir)
            target_dir source_path).1,
         (extract_all_after_mount env
            (FS.set (FS.set fs (dmg_path_of env) Entry.file) (mount_point_of env) Entry.dir)
            target_dir source_path).2.1,
         DmgEvent.writeDmg (dmg_path_of env)
           :: [DmgEvent.createMountDir (mount_point_of env),
               DmgEvent.hdiutilAttach (mount_point_of env) (dmg_path_of env)]
           ++ (extract_all_after_mount env
                (FS.set (FS.set fs (dmg_path_of env) Entry.file) (mount_point_of env) Entry.dir)
                target_dir source_path).2.2) := by
  have hmount : mount env (FS.set fs (dmg_path_of env) Entry.file)
      (dmg_path_of env) (mount_point_of env)
      = (Except.ok (),
         FS.set (FS.set fs (dmg_path_of env) Entry.file) (mount_point_of env) Entry.dir,
         [DmgEvent.createMountDir (mount_point_of env),
          DmgEvent.hdiutilAttach (mount_point_of env) (dmg_path_of env)]) := by
    unfold mount
    rw [hat]
    simp [hcd]
  unfold extract_all
  rw [hw]
  simp only [Bool.true_eq_false, if_false]
  rw [hmount]

end DmgExtractor

namespace DmgExtractor

/-- C2 (amended): on every path of `extract_all` that reaches the copy
attempt — i.e. writing the temporary image and mounting it succeeded —
unmount and temp-file removal are attempted unconditionally after the
copy attempt, cleanup failures never override or mask the copy result,
and when the cleanup operations themselves succeed the temporary mount
point and the temporary image file no longer exist afterward.  (On the
mount-failure path the code returns early without attempting any
cleanup; see the counterexample.) -/
theorem extract_all_cleanup_after_copy (env : DmgEnv) (fs : FS) (target_dir : List String)
    (source_path : Option (List String))
    (hw : env.writeOk = true) (hcd : env.createDirOk = true)
    (o e : String) (hat : env.attach = CmdOutcome.exited true o e) :
    (extract_all env fs target_dir source_path).1
        = (copy_recursive env (dmg_source env source_path) target_dir).1
    ∧ (∃ pre post,
        (extract_all env fs target_dir source_path).2.2
          = pre ++ DmgEvent.copy (dmg_source env source_path) target_dir :: post
        ∧ DmgEvent.hdiutilDetach (mount_point_of env) ∈ post
        ∧ DmgEvent.removeDmgFile (dmg_path_of env) ∈ post)
    ∧ (∀ o2 e2, env.detach = CmdOutcome.exited true o2 e2 →
        env.removeMountDirOk = true → env.removeDmgOk = true →
        (extract_all env fs target_dir source_path).2.1 (dmg_path_of env) = Entry.absent
        ∧ (extract_all env fs target_dir source_path).2.1 (mount_point_of env) = Entry.absent) := by
  rw [extract_all_mounted env fs target_dir source_path hw hcd o e hat]
  rw [after_mount_spec]
  refine ⟨rfl, ?_, ?_⟩
  · refine ⟨DmgEvent.writeDmg (dmg_path_of env)
        :: [DmgEvent.createMountDir (mount_point_of env),
            DmgEvent.hdiutilAttach (mount_point_of env) (dmg_path_of env)]
        ++ (remove_existing_dest env
             (FS.set (FS.set fs (dmg_path_of env) Entry.file) (mount_point_of env) Entry.dir)
             target_dir (dmg_source env source_path)).2,
      (unmount env
          (remove_existing_dest env
            (FS.set (FS.set fs (dmg_path_of env) Entry.file) (mount_point_of env) Entry.dir)
            target_dir (dmg_source env source_path)).1
          (mount_point_of env)).2.2
        ++ [DmgEvent.removeDmgFile (dmg_path_of env)], ?_, ?_, ?_⟩
    · simp [copy_recursive_trace, List.append_assoc]
    · exact List.mem_append.mpr (Or.inl (unmount_detach_mem env _ (mount_point_of env)))
    · simp
  · intro o2 e2 hdet hrm hrd
    constructor
    · simp [hrd, FS.set]
    · by_cases hmp : mount_point_of env = dmg_path_of env
      · simp [hrd, FS.set, hmp]
      · simp only [hrd, if_true]
        have hun := unmount_removes_mount_point env
          (remove_existing_dest env
            (FS.set (FS.set fs (dmg_path_of env) Entry.file) (mount_point_of env) Entry.dir)
            target_dir (dmg_source env source_path)).1
          (mount_point_of env) o2 e2 hdet hrm
        simpa [FS.set, hmp] using hun

/-- Witness for C2 (amended): a concrete run in which every external
operation succeeds. -/
theorem extract_all_cleanup_after_copy_witness :
    (extract_all envC2w fs0 ["target"] none).1
        = (copy_recursive envC2w (dmg_source envC2w none) ["target"]).1
    ∧ (∃ pre post,
        (extract_all envC2w fs0 ["target"] none).2.2
          = pre ++ DmgEvent.copy (dmg_source envC2w none) ["target"] :: post
        ∧ DmgEvent.hdiutilDetach (mount_point_of envC2w) ∈ post
        ∧ DmgEvent.removeDmgFile (dmg_path_of envC2w) ∈ post)
    ∧ (∀ o2 e2, envC2w.detach = CmdOutcome.exited true o2 e2 →
        envC2w.removeMountDirOk = true → envC2w.removeDmgOk = true →
        (extract_all envC2w fs0 ["target"] none).2.1 (dmg_path_of envC2w) = Entry.absent
        ∧ (extract_all envC2w fs0 ["target"] none).2.1 (mount_point_of envC2w) = Entry.absent) :=
  extract_all_cleanup_after_copy envC2w fs0 ["target"] none rfl rfl "" "" rfl

/-- Counterexample for C2 as stated: on the path where mounting itself
fails (`hdiutil attach` exits nonzero), `extract_all` returns without
attempting unmount or temp-file removal and both the temporary image file
and the temporary mount-point directory still exist afterward; moreover
even on a successful copy, a failing `hdiutil detach` leaves the
temporary mount point existing after return. -/
theorem extract_all_cleanup_counterexample :
    (is_ok (extract_all envC2a fs0 ["target"] none).1 = false
     ∧ (extract_all envC2a fs0 ["target"] none).2.1 ["tmp", "id0.dmg"] = Entry.file
     ∧ (extract_all envC2a fs0 ["target"] none).2.1 ["tmp", "mnt_id0"] = Entry.dir
     ∧ DmgEvent.hdiutilDetach ["tmp", "mnt_id0"] ∉ (extract_all envC2a fs0 ["target"] none).2.2
     ∧ DmgEvent.removeDmgFile ["tmp", "id0.dmg"] ∉ (extract_all envC2a fs0 ["target"] none).2.2)
    ∧ (is_ok (extract_all envC2b fs0 ["target"] none).1 = true
       ∧ (extract_all envC2b fs0 ["target"] none).2.1 ["tmp", "mnt_id0"] = Entry.dir) := by
  decide

end DmgExtractor

namespace ToolUninstallService

theorem fleet_asset_stop_fst (env : ToolEnv) (id : String)
    (hasset : str_contains_sub (str_to_lower id) "fleet" = true →
        env.stopAsset "osqueryd" id = Except.ok ()) :
    (fleet_asset_stop env id).1 = Except.ok () := by
  unfold fleet_asset_stop
  by_cases h : str_contains_sub (str_to_lower id) "fleet" = true
  · simp [h, hasset h]
  · simp [h]

theorem fleet_asset_stop_events (env : ToolEnv) (id : String) :
    ∀ ev ∈ (fleet_asset_stop env id).2, ev = Event.stopAsset "osqueryd" id := by
  intro ev hev
  unfold fleet_asset_stop at hev
  by_cases h : str_contains_sub (str_to_lower id) "fleet" = true
  · rw [if_pos h] at hev
    cases hs : env.stopAsset "osqueryd" id with
    | ok u => rw [hs] at hev; simpa using hev
    | error e => rw [hs] at hev; simpa using hev
  · rw [if_neg h] at hev
    simp at hev

theorem remove_bundle_events_shape (env : ToolEnv) (p : List String) :
    ∀ ev ∈ remove_macos_app_bundle env p, ∃ b ok, ev = Event.removeBundle b ok := by
  intro ev hev
  unfold remove_macos_app_bundle at hev
  cases hf : (ancestors p).find? is_app_bundle with
  | none => rw [hf] at hev; simp at hev
  | some b =>
    rw [hf] at hev
    by_cases hx : env.pathExists b = false
    · simp [hx] at hev
    · simp [hx] at hev
      exact ⟨b, env.removeDirAll b, hev⟩

theorem cleanup_events_shape (env : ToolEnv) (tool : InstalledTool) :
    ∀ ev ∈ cleanup_gui_app_bundle env tool,
      ev = Event.cleanupGui tool.tool_agent_id ∨ ∃ b ok, ev = Event.removeBundle b ok := by
  intro ev hev
  simp only [cleanup_gui_app_bundle, List.mem_cons] at hev
  rcases hev with h | h
  · exact Or.inl h
  · right
    by_cases hty : tool.installation_type ≠ InstallationType.GuiApp
    · rw [if_pos hty] at h; simp at h
    · rw [if_neg hty] at h
      cases hx : tool.executable_path with
      | none => rw [hx] at h; simp at h
      | some p =>
        rw [hx] at h
        exact remove_bundle_events_shape env p ev h

theorem uninstall_tool_no_args_eq (env : ToolEnv) (tool : InstalledTool)
    (hstop : env.stopInstalledTool tool = Except.ok ())
    (hasset : str_contains_sub (str_to_lower tool.tool_agent_id) "fleet" = true →
        env.stopAsset "osqueryd" tool.tool_agent_id = Except.ok ())
    (hargs : tool.uninstallation_command_args = none
        ∨ tool.uninstallation_command_args = some []) :
    uninstall_tool env tool
      = (Except.ok (), Event.stopTool tool.tool_agent_id
           :: (fleet_asset_stop env tool.tool_agent_id).2
           ++ cleanup_gui_app_bundle env tool) := by
  cases hF : fleet_asset_stop env tool.tool_agent_id with
  | mk rf evsF =>
    have hrf : rf = Except.ok () := by
      have h := fleet_asset_stop_fst env tool.tool_agent_id hasset
      rwa [hF] at h
    subst hrf
    rcases hargs with h | h <;> simp [uninstall_tool, hstop, hF, h]

end ToolUninstallService

namespace ToolUninstallService

/-- C4: for a tool whose uninstallation command arguments are absent or
empty — presupposing the preceding stop steps of the per-tool procedure
succeed — `uninstall_tool` returns success, never invokes the command
resolver or the uninstall subprocess, still invokes GuiApp bundle
cleanup, and when the tool is a `GuiApp` whose recorded executable path
yields an existing bundle ancestor, the bundle deletion is attempted. -/
theorem uninstall_tool_no_args_spec (env : ToolEnv) (tool : InstalledTool)
    (hstop : env.stopInstalledTool tool = Except.ok ())
    (hasset : str_contains_sub (str_to_lower tool.tool_agent_id) "fleet" = true →
        env.stopAsset "osqueryd" tool.tool_agent_id = Except.ok ())
    (hargs : tool.uninstallation_command_args = none
        ∨ tool.uninstallation_command_args = some []) :
    (uninstall_tool env tool).1 = Except.ok ()
    ∧ (∀ id as, Event.resolveCmd id as ∉ (uninstall_tool env tool).2)
    ∧ (∀ p as, Event.execCmd p as ∉ (uninstall_tool env tool).2)
    ∧ Event.cleanupGui tool.tool_agent_id ∈ (uninstall_tool env tool).2
    ∧ (tool.installation_type = InstallationType.GuiApp →
        ∀ p b, tool.executable_path = some p →
          (ancestors p).find? is_app_bundle = some b →
          env.pathExists b = true →
          Event.removeBundle b (env.removeDirAll b) ∈ (uninstall_tool env tool).2) := by
  have heq := uninstall_tool_no_args_eq env tool hstop hasset hargs
  rw [heq]
  refine ⟨rfl, ?_, ?_, ?_, ?_⟩
  · intro id as hmem
    simp only [List.mem_append, List.mem_cons] at hmem
    rcases hmem with (h | h) | h
    · exact Event.noConfusion h
    · exact Event.noConfusion (fleet_asset_stop_events env tool.tool_agent_id _ h)
    · rcases cleanup_events_shape env tool _ h with h1 | ⟨b, ok, h1⟩ <;> exact Event.noConfusion h1
  · intro p as hmem
    simp only [List.mem_append, List.mem_cons] at hmem
    rcases hmem with (h | h) | h
    · exact Event.noConfusion h
    · exact Event.noConfusion (fleet_asset_stop_events env tool.tool_agent_id _ h)
    · rcases cleanup_events_shape env tool _ h with h1 | ⟨b, ok, h1⟩ <;> exact Event.noConfusion h1
  · simp [cleanup_gui_app_bundle]
  · intro hty p b hp hfind hex
    have hcl : Event.removeBundle b (env.removeDirAll b) ∈ cleanup_gui_app_bundle env tool := by
      simp [cleanup_gui_app_bundle, hty, hp, remove_macos_app_bundle, hfind, hex]
    simp only [List.mem_append, List.mem_cons]
    exact Or.inr hcl

/-- Witness for C4: a GuiApp tool without uninstall arguments still has
its bundle deletion attempted, with no resolver or subprocess events. -/
theorem uninstall_tool_no_args_spec_witness :
    (uninstall_tool envC4 toolC4).1 = Except.ok ()
    ∧ (∀ id as, Event.resolveCmd id as ∉ (uninstall_tool envC4 toolC4).2)
    ∧ (∀ p as, Event.execCmd p as ∉ (uninstall_tool envC4 toolC4).2)
    ∧ Event.cleanupGui toolC4.tool_agent_id ∈ (uninstall_tool envC4 toolC4).2
    ∧ (toolC4.installation_type = InstallationType.GuiApp →
        ∀ p b, toolC4.executable_path = some p →
          (ancestors p).find? is_app_bundle = some b →
          envC4.pathExists b = true →
          Event.removeBundle b (envC4.removeDirAll b) ∈ (uninstall_tool envC4 toolC4).2) :=
  uninstall_tool_no_args_spec envC4 toolC4 rfl
    (fun h => absurd h (by decide)) (Or.inl rfl)

end ToolUninstallService

namespace ToolUninstallService

theorem run_uninstall_command_ok (env : ToolEnv) (tool : InstalledTool) (args : List String)
    (pargs : List String)
    (hres : env.resolveParams tool.tool_agent_id args = Except.ok pargs)
    (hrest : env.pathExists (env.toolExecPath tool.tool_agent_id tool.executable_path) = false
        ∨ ∃ out err,
            env.execOutput (env.toolExecPath tool.tool_agent_id tool.executable_path) pargs
              = CmdOutcome.exited true out err) :
    (run_uninstall_command env tool args).1 = Except.ok () := by
  simp only [run_uninstall_command]
  rw [hres]
  rcases hrest with hpe | ⟨out, err, hexec⟩
  · simp [hpe]
  · by_cases hpe2 : env.pathExists (env.toolExecPath tool.tool_agent_id tool.executable_path) = false
    · simp [hpe2]
    · simp [hpe2, hexec]

theorem uninstall_tool_ok_of_phases (env : ToolEnv) (tool : InstalledTool)
    (h : tool_phases_ok env tool) : (uninstall_tool env tool).1 = Except.ok () := by
  obtain ⟨hstop, hasset, hcmd⟩ := h
  cases hargs : tool.uninstallation_command_args with
  | none =>
    rw [uninstall_tool_no_args_eq env tool hstop hasset (Or.inl hargs)]
  | some args =>
    by_cases hemp : args = []
    · subst hemp
      rw [uninstall_tool_no_args_eq env tool hstop hasset (Or.inr hargs)]
    · unfold command_phase_ok at hcmd
      rw [hargs] at hcmd
      rcases hcmd with h | ⟨pargs, hres, hrest⟩
      · exact absurd h hemp
      · have hrun := run_uninstall_command_ok env tool args pargs hres hrest
        have hempB : args.isEmpty = false := by
          cases args with
          | nil => exact absurd rfl hemp
          | cons a as => rfl
        cases hF : fleet_asset_stop env tool.tool_agent_id with
        | mk rf evsF =>
          have hrf : rf = Except.ok () := by
            have hx := fleet_asset_stop_fst env tool.tool_agent_id hasset
            rwa [hF] at hx
          subst hrf
          cases hR : run_uninstall_command env tool args with
          | mk r2 evs2 =>
            have hr2 : r2 = Except.ok () := by rwa [hR] at hrun
            subst hr2
            simp [uninstall_tool, hstop, hF, hargs, hempB, hR]

theorem uninstall_tools_all_ok (env : ToolEnv) :
    ∀ tools : List InstalledTool,
    (∀ t ∈ tools, (uninstall_tool env t).1 = Except.ok ()) →
    uninstall_tools env tools
      = (Except.ok (),
         (tools.map fun t => Event.processTool t.tool_agent_id :: (uninstall_tool env t).2).flatten) := by
  intro tools
  induction tools with
  | nil => intro _; simp [uninstall_tools]
  | cons t rest ih =>
    intro h
    cases hE : uninstall_tool env t with
    | mk r evs =>
      have hr : r = Except.ok () := by
        have hx := h t (List.mem_cons_self _ _)
        rwa [hE] at hx
      subst hr
      have ih2 := ih (fun t' ht' => h t' (List.mem_cons_of_mem _ ht'))
      simp [uninstall_tools, hE, ih2]

theorem uninstall_tools_fail (env : ToolEnv) :
    ∀ (pre : List InstalledTool) (t : InstalledTool) (post : List InstalledTool) (e : String),
    (∀ t' ∈ pre, (uninstall_tool env t').1 = Except.ok ()) →
    (uninstall_tool env t).1 = Except.error e →
    uninstall_tools env (pre ++ t :: post)
      = (Except.error (ctx ("Failed to uninstall tool: " ++ t.tool_agent_id) e),
         (pre.map fun t' => Event.processTool t'.tool_agent_id :: (uninstall_tool env t').2).flatten
           ++ Event.processTool t.tool_agent_id :: (uninstall_tool env t).2) := by
  intro pre
  induction pre with
  | nil =>
    intro t post e _ hfail
    cases hE : uninstall_tool env t with
    | mk r evs =>
      have hr : r = Except.error e := by rwa [hE] at hfail
      subst hr
      simp [uninstall_tools, hE]
  | cons a pre ih =>
    intro t post e hpre hfail
    cases hA : uninstall_tool env a with
    | mk ra evsA =>
      have hra : ra = Except.ok () := by
        have hx := hpre a (List.mem_cons_self _ _)
        rwa [hA] at hx
      subst hra
      have ih2 := ih t post e (fun t' ht' => hpre t' (List.mem_cons_of_mem _ ht')) hfail
      simp [uninstall_tools, hA, ih2]

/-- C9: the GuiApp bundle-cleanup step can never fail the per-tool
uninstall or the batch: whenever every pre-cleanup phase of
`uninstall_tool` succeeds, the tool's uninstall returns success for every
environment — in particular for any bundle-lookup outcome, a missing
bundle, or a failing recursive deletion (`removeDirAll` is unconstrained)
— and a registry of such tools makes `uninstall_all` succeed. -/
theorem cleanup_never_fails (env : ToolEnv) :
    (∀ tool, tool_phases_ok env tool → (uninstall_tool env tool).1 = Except.ok ())
    ∧ (∀ tools, env.getAll = Except.ok tools → (∀ t ∈ tools, tool_phases_ok env t) →
        (uninstall_all env).1 = Except.ok ()) := by
  constructor
  · exact fun tool h => uninstall_tool_ok_of_phases env tool h
  · intro tools hreg hall
    have h := uninstall_tools_all_ok env tools
      (fun t ht => uninstall_tool_ok_of_phases env t (hall t ht))
    by_cases hne : tools.isEmpty = true
    · simp [uninstall_all, hreg, hne]
    · simp [uninstall_all, hreg, hne, h]

/-- Witness for C9: a GuiApp tool whose bundle deletion fails
(`removeDirAll` returns failure) still uninstalls successfully. -/
theorem cleanup_never_fails_witness :
    (uninstall_tool envC9 toolC9).1 = Except.ok () :=
  (cleanup_never_fails envC9).1 toolC9
    ⟨rfl, fun _ => rfl, Or.inr ⟨["--uninstall"], rfl, Or.inr ⟨"", "", rfl⟩⟩⟩

end ToolUninstallService

namespace ToolUninstallService

/-- C1: when the registry returns a non-empty list in which every tool
before `t` uninstalls successfully and `t` fails, `uninstall_all`
processes the tools strictly in registry order, aborts at `t` with an
error naming `t`, and its full action trace consists exactly of the
processing of the tools before `t` followed by the processing of `t` —
tools after `t` are never processed and nothing is rolled back. -/
theorem uninstall_all_fail_fast (env : ToolEnv) (pre : List InstalledTool)
    (t : InstalledTool) (post : List InstalledTool) (e : String)
    (hreg : env.getAll = Except.ok (pre ++ t :: post))
    (hpre : ∀ t' ∈ pre, (uninstall_tool env t').1 = Except.ok ())
    (hfail : (uninstall_tool env t).1 = Except.error e) :
    uninstall_all env
      = (Except.error (ctx ("Failed to uninstall tool: " ++ t.tool_agent_id) e),
         (pre.map fun t' => Event.processTool t'.tool_agent_id :: (uninstall_tool env t').2).flatten
           ++ Event.processTool t.tool_agent_id :: (uninstall_tool env t).2) := by
  have hne : (pre ++ t :: post).isEmpty = false := by cases pre <;> rfl
  have hloop := uninstall_tools_fail env pre t post e hpre hfail
  simp [uninstall_all, hreg, hne, hloop]

/-- Witness for C1: over three tools where tool #2 (`beta`) fails, the
batch aborts before tool #3 (`gamma`) is processed and the error names
tool #2. -/
theorem uninstall_all_fail_fast_witness :
    uninstall_all envC1
      = (Except.error
           (ctx ("Failed to uninstall tool: " ++ "beta")
             (ctx ("Failed to stop tool process for: " ++ "beta") "boom")),
         [Event.processTool "alpha", Event.stopTool "alpha", Event.cleanupGui "alpha",
          Event.processTool "beta", Event.stopTool "beta"]) :=
  uninstall_all_fail_fast envC1 [toolA] toolB [toolC]
    (ctx ("Failed to stop tool process for: " ++ "beta") "boom")
    rfl
    (by
      intro t' ht'
      simp only [List.mem_singleton] at ht'
      subst ht'
      rfl)
    rfl

/-- C3 (the code's actual behavior at the claim's scenario): for a GuiApp
tool with uninstall arguments whose resolved executable path does not
exist, `uninstall_tool` returns success but returns immediately — GuiApp
bundle cleanup is never invoked, contradicting the claim's (and the
specification's) "skip to step 6". -/
theorem uninstall_tool_missing_exec_no_cleanup :
    uninstall_tool envC3 toolC3
      = (Except.ok (), [Event.stopTool "foo", Event.resolveCmd "foo" ["--uninstall"]])
    ∧ Event.cleanupGui "foo" ∉ (uninstall_tool envC3 toolC3).2 := by
  refine ⟨rfl, ?_⟩
  decide

end ToolUninstallService
